import Mathlib

/-!
Verification of the selector-healing engine of HealWithPlaywright.

The development shallowly embeds the two core modules:
* `src/healing/aiLocator.ts` — the healing orchestrator (`healSelector`),
  the heuristic scorer (`heuristicHeal` and its helpers), the clickability
  predicate (`isClickableSelector`) and the remote-suggestion client
  (`aiHeal`);
* `src/utils/cache.ts` — the healed-selector cache (`readFile`,
  `writeFile`, `getHealed`, `setHealed`).

External collaborators are modelled at their interfaces:
* cheerio's `load`/`$` is modelled by `Dom`, a selector-indexed query
  function returning the matched tag elements of the snapshot;
* the filesystem + JSON layer behind the cache is modelled by
  `BackingFile` (missing / unreadable / blank / malformed / well-formed);
* the remote HTTP transport is modelled by a response stream
  `Nat → AIResp` giving the outcome of the i-th request.
-/

/-- ASCII alphanumeric test, mirroring the JS character class `[a-zA-Z0-9]`. -/
def isAlnum (c : Char) : Bool := c.isAlpha || c.isDigit

/-- Lower-casing, mirroring JS `toLowerCase` on the ASCII selector
alphabet, realised char-listwise so that the kernel can evaluate it. -/
def lowerStr (s : String) : String := String.mk (s.toList.map Char.toLower)

/-- Strip leading and trailing whitespace (JS `trim`). -/
def trimStr (s : String) : String :=
  String.mk (((s.toList.dropWhile Char.isWhitespace).reverse.dropWhile
    Char.isWhitespace).reverse)

/-- The first line of a string (JS `s.split('\n')[0]`). -/
def firstLineOf (s : String) : String :=
  String.mk (s.toList.takeWhile (fun c => !(c == '\n')))

/-- `isPrefixChars p l` holds when the char list `p` is a prefix of `l`. -/
def isPrefixChars : List Char → List Char → Bool
  | [], _ => true
  | _ :: _, [] => false
  | a :: as, b :: bs => a == b && isPrefixChars as bs

/-- `containsChars needle l`: `needle` occurs as a contiguous run in `l`
(JS `String.prototype.includes`). -/
def containsChars (needle : List Char) : List Char → Bool
  | [] => isPrefixChars needle []
  | c :: cs => isPrefixChars needle (c :: cs) || containsChars needle cs

/-- Substring containment on strings (JS `hay.includes(needle)`). -/
def strContains (hay needle : String) : Bool :=
  containsChars needle.toList hay.toList

/-- Split a char list at every char satisfying `p`, keeping the pieces in
order (pieces may be empty; they are filtered by `splitByP`). -/
def splitByPAux (p : Char → Bool) : List Char → List Char → List String
  | [], acc => [String.mk acc.reverse]
  | c :: cs, acc =>
    if p c then String.mk acc.reverse :: splitByPAux p cs []
    else splitByPAux p cs (c :: acc)

/-- Split a string on runs of chars satisfying `p` and drop empty pieces,
mirroring JS `s.split(/[p]+/).filter(Boolean)`. -/
def splitByP (p : Char → Bool) (s : String) : List String :=
  (splitByPAux p s.toList []).filter (fun t => !(t == ""))

/-- First-occurrence de-duplication, mirroring `Array.from(new Set(raw))`. -/
def dedupKeepFirst (l : List String) : List String :=
  l.foldl (fun acc x => if x ∈ acc then acc else acc ++ [x]) []

/-- `containsAny hay needles` (from `aiLocator.ts`): some needle occurs in `hay`. -/
def containsAny (hay : String) (needles : List String) : Bool :=
  needles.any (fun n => strContains hay n)

/-- `containsAll hay needles` (from `aiLocator.ts`): every needle occurs in `hay`. -/
def containsAll (hay : String) (needles : List String) : Bool :=
  needles.all (fun n => strContains hay n)

/-- JS string truthiness for an optional attribute value:
`undefined` and `''` are falsy. -/
def truthy : Option String → Bool
  | none => false
  | some s => !(s == "")

/-- `eq` from `aiLocator.ts`: `String(a || '').toLowerCase() === b.toLowerCase()`. -/
def eqCI (a : Option String) (b : String) : Bool :=
  lowerStr (a.getD "") == lowerStr b

/-- An element of the parsed snapshot: tag name, attribute list, and the
descendant text that `$(el).text()` would return. Cheerio attribute maps
are modelled as association lists. -/
structure Element where
  tag : String
  attribs : List (String × String)
  text : String
deriving DecidableEq

/-- Attribute lookup (`el.attribs[k]`, `undefined` when absent). -/
def Element.attr (e : Element) (k : String) : Option String :=
  e.attribs.lookup k

/-- Attribute lookup defaulted to the empty string (`attribs[k] || ''`). -/
def attrD (e : Element) (k : String) : String :=
  (e.attr k).getD ""

/-- The parsed DOM snapshot, modelled at cheerio's interface: `query s`
returns the tag elements matched by the CSS selector `s` (an invalid or
non-matching selector yields `[]`). -/
structure Dom where
  query : String → List Element

/-- `/^(submit|button)$/i.test(type)`. -/
def isSubmitOrButtonType (t : String) : Bool :=
  lowerStr t == "submit" || lowerStr t == "button"

/-- Word characters of JS `\b` boundaries: `[A-Za-z0-9_]`. -/
def isWordChar (c : Char) : Bool := isAlnum c || c == '_'

/-- Scan for the word `btn` with `\b` boundaries on both sides, starting at
successive positions; `pre` is the char preceding the current position. -/
def btnWordAux (pre : Option Char) : List Char → Bool
  | [] => false
  | c :: cs =>
    ((match pre with | none => true | some x => !isWordChar x) &&
      isPrefixChars ['b', 't', 'n'] (c :: cs) &&
      (match (c :: cs).drop 3 with | [] => true | x :: _ => !isWordChar x))
    || btnWordAux (some c) cs

/-- `/\bbtn\b/.test(cls)` (case-sensitive). -/
def hasBtnWord (cls : String) : Bool := btnWordAux none cls.toList

/-- The clickability test applied to one matched tag element
(the body of the `arr.some` in `isClickableSelector`). -/
def isClickableElement (el : Element) : Bool :=
  el.tag == "button"
  || (el.tag == "input" && isSubmitOrButtonType (attrD el "type"))
  || (el.tag == "a" &&
      (lowerStr (attrD el "role") == "button" || hasBtnWord (attrD el "class")))

/-- `isClickableSelector($, selector)` from `aiLocator.ts`: the selector
matches at least one node and some matched tag element is clickable. The
`try/catch` around an invalid selector is absorbed by `Dom.query`
returning `[]` there. -/
def isClickableSelector (d : Dom) (selector : String) : Bool :=
  let nodes := d.query selector
  if nodes.isEmpty then false else nodes.any isClickableElement

/-- The selector-syntax characters that `extractTokens` first replaces by a
space: the JS character class `[#\.\[\]=:"']`. -/
def isSelectorSyntaxChar (c : Char) : Bool :=
  c == '#' || c == '.' || c == '[' || c == ']' || c == '=' || c == ':'
  || c == Char.ofNat 34 || c == Char.ofNat 39

/-- `extractTokens` from `aiLocator.ts`: strip selector syntax, split on
non-alphanumeric runs, lower-case, de-duplicate keeping first occurrences,
drop tokens shorter than 3 chars, then stably sort `login` before `button`
before everything else (the stable sort by rank is realised as a
partition, which is extensionally identical on a de-duplicated list). -/
def extractTokens (sel : String) : List String :=
  let replaced := String.mk (sel.toList.map (fun c => if isSelectorSyntaxChar c then ' ' else c))
  let raw := (splitByP (fun c => !isAlnum c) replaced).map lowerStr
  let dedup := (dedupKeepFirst raw).filter (fun t => 3 ≤ t.length)
  dedup.filter (fun t => t == "login")
    ++ dedup.filter (fun t => t == "button")
    ++ dedup.filter (fun t => !(t == "login") && !(t == "button"))

/-- `tokenMatchScore` from `aiLocator.ts`: `weightPerHit` per token contained
in the (lower-cased) value; a missing or empty value scores 0. -/
def tokenMatchScore (tokens : List String) (value : Option String)
    (weightPerHit : Int) : Int :=
  if truthy value then
    let v := lowerStr (value.getD "")
    tokens.foldl (fun score t => if strContains v t then score + weightPerHit else score) 0
  else 0

/-- `/container|wrapper/i.test(s)`. -/
def containerOrWrapperRe (s : String) : Bool :=
  strContains (lowerStr s) "container" || strContains (lowerStr s) "wrapper"

/-- `cssEscape` from `aiLocator.ts`: backslash-escape double quotes. -/
def cssEscape (s : String) : String :=
  String.mk (s.toList.foldr
    (fun c acc => if c == Char.ofNat 34 then '\\' :: Char.ofNat 34 :: acc else c :: acc) [])

/-- First whitespace-separated class name of a `class` attribute
(`String(cls).trim().split(/\s+/).filter(Boolean)[0]`). -/
def firstClassOf (cls : String) : Option String :=
  (splitByP Char.isWhitespace cls).head?

/-- `buildBestSelectorFor` from `aiLocator.ts`: synthesize a selector for an
element with preference id > data-test > data-testid > tag[name] >
tag[aria-label*] > first non-structural class > bare tag. -/
def buildBestSelectorFor (el : Element) : String :=
  let tag := if el.tag == "" then "div" else el.tag
  let id := el.attr "id"
  let dt := el.attr "data-test"
  let dti := el.attr "data-testid"
  let nm := el.attr "name"
  let al := el.attr "aria-label"
  let cls := el.attr "class"
  if truthy id && !containerOrWrapperRe (id.getD "") then
    "#" ++ cssEscape (id.getD "")
  else if truthy dt && !containerOrWrapperRe (dt.getD "") then
    "[data-test=\"" ++ cssEscape (dt.getD "") ++ "\"]"
  else if truthy dti then
    "[data-testid=\"" ++ cssEscape (dti.getD "") ++ "\"]"
  else if truthy nm then
    tag ++ "[name=\"" ++ cssEscape (nm.getD "") ++ "\"]"
  else if truthy al then
    tag ++ "[aria-label*=\"" ++ cssEscape (al.getD "") ++ "\"]"
  else if truthy cls then
    match firstClassOf (cls.getD "") with
    | some c => if containerOrWrapperRe c then tag else "." ++ cssEscape c
    | none => tag
  else tag

/-- Boundary characters of the final heuristic guard regex: `["'\-\s]`. -/
def guardBoundary (c : Char) : Bool :=
  c == Char.ofNat 34 || c == Char.ofNat 39 || c == '-' || c.isWhitespace

/-- The alternatives of the final guard regex, lower-cased. -/
def guardWords : List (List Char) :=
  ["login-container".toList, "wrapper".toList, "container".toList]

/-- One position of the guard-regex scan: a guard word starts here, with a
boundary (or the string edge) on both sides; `pre` is the preceding char. -/
def guardAt (pre : Option Char) (l : List Char) : Bool :=
  (match pre with | none => true | some c => guardBoundary c) &&
  guardWords.any (fun w =>
    isPrefixChars w l &&
    (match l.drop w.length with | [] => true | c :: _ => guardBoundary c))

/-- Scan every position of the (lower-cased) char list for a guard match. -/
def containerGuardAux (pre : Option Char) : List Char → Bool
  | [] => false
  | c :: cs => guardAt pre (c :: cs) || containerGuardAux (some c) cs

/-- The final guard of `heuristicHeal`:
`/(^|["'\-\s])(login-container|wrapper|container)(["'\-\s]|$)/i.test(s)`. -/
def containerGuard (s : String) : Bool :=
  containerGuardAux none (lowerStr s).toList

/-- The fixed clickable-role selector set queried by `heuristicHeal`. -/
def candidateQueries : List String :=
  ["button", "input[type=\"submit\"]", "input[type=\"button\"]",
   "[role=\"button\"]", "a.btn", "a[role=\"button\"]"]

/-- The candidate elements collected by `heuristicHeal` (tag nodes matched
by the fixed query set, in query order, duplicates kept). -/
def candidatesOf (d : Dom) : List Element :=
  (candidateQueries.map d.query).flatten

/-- The quick negative filter of `heuristicHeal`: the element's id or class
text contains a structural-wrapper marker. -/
def looksContainer (el : Element) : Bool :=
  containsAny (lowerStr (attrD el "id") ++ " " ++ lowerStr (attrD el "class"))
    ["container", "wrapper", "form", "box", "panel", "section"]

/-- `/^#[-a-zA-Z0-9_]+$/.test(s)`: the "nice bare-id selector" bonus test. -/
def niceIdSelector (s : String) : Bool :=
  match s.toList with
  | [] => false
  | c :: rest => c == '#' && !rest.isEmpty && rest.all (fun x => x == '-' || x == '_' || isAlnum x)

/-- The score `heuristicHeal` assigns to one candidate element. -/
def scoreEl (tokens : List String) (el : Element) : Int :=
  let text := lowerStr (trimStr el.text)
  let candidateSelector := buildBestSelectorFor el
  let iddt := attrD el "id" ++ " " ++ attrD el "data-test"
  (if el.tag == "button" then 8 else 0)
  + (if el.tag == "input" && isSubmitOrButtonType (attrD el "type") then 8 else 0)
  + (if el.tag == "a" then 3 else 0)
  + (if eqCI (el.attr "data-test") "login-button" then 50 else 0)
  + (if eqCI (el.attr "id") "login-button" then 50 else 0)
  + tokenMatchScore tokens (el.attr "id") 12
  + tokenMatchScore tokens (el.attr "data-test") 14
  + tokenMatchScore tokens (el.attr "data-testid") 10
  + tokenMatchScore tokens (el.attr "name") 8
  + tokenMatchScore tokens (el.attr "aria-label") 6
  + tokenMatchScore tokens (el.attr "value") 4
  + tokenMatchScore tokens (el.attr "class") 2
  + tokenMatchScore tokens (some text) 6
  + (if containsAny (lowerStr (attrD el "data-test")) ["container", "wrapper"] then -30 else 0)
  + (if containsAny (lowerStr (attrD el "id")) ["container", "wrapper"] then -30 else 0)
  + (if containsAll (lowerStr iddt) ["login", "button"] then 40 else 0)
  + (if niceIdSelector candidateSelector then 8 else 0)
  + (if isPrefixChars "[data-test=".toList candidateSelector.toList then 6 else 0)

/-- One iteration of the best-candidate loop of `heuristicHeal`: skip
structural wrappers, otherwise keep the strictly higher score (`none`
plays the role of the initial `bestScore = -Infinity`). -/
def heuristicStep (tokens : List String) (acc : Option (String × Int))
    (el : Element) : Option (String × Int) :=
  if looksContainer el then acc
  else
    let s := scoreEl tokens el
    let candidateSelector := buildBestSelectorFor el
    match acc with
    | none => some (candidateSelector, s)
    | some (bestSel, bestScore) =>
      if s > bestScore then some (candidateSelector, s) else some (bestSel, bestScore)

/-- `heuristicHeal($, failedSelector)` from `aiLocator.ts`. -/
def heuristicHeal (d : Dom) (failedSelector : String) : Option String :=
  let tokens := extractTokens failedSelector
  let candidates := candidatesOf d
  if candidates.isEmpty then none
  else
    match candidates.foldl (heuristicStep tokens) none with
    | none => none
    | some (bestSel, _) => if containerGuard bestSel then none else some bestSel

/-- Outcome of one remote request, at the transport interface: `ok` carries
the extracted message content (`res.data?.choices?.[0]?.message?.content
|| ''`), `fail` carries the thrown error's `e?.response?.status`. -/
inductive AIResp where
  | ok (content : String)
  | fail (status : Option Nat)
deriving DecidableEq

/-- Result of one run of the remote-suggestion client: the returned
selector (or none), the number of requests issued, and the backoff sleeps
performed, in order. -/
structure AIOutcome where
  result : Option String
  requests : Nat
  sleeps : List Nat
deriving DecidableEq

/-- Strip a leading run and a trailing run of the char `c`
(JS `s.replace(/^c+|c+$/g, '')`). -/
def stripEdge (c : Char) (s : String) : String :=
  String.mk (((s.toList.dropWhile (fun x => x == c)).reverse.dropWhile
    (fun x => x == c)).reverse)

/-- The answer-cleaning pipeline of `aiHeal`: trim, take the first line,
trim it, strip surrounding backticks, then surrounding double quotes. -/
def cleanAnswer (content : String) : String :=
  let raw := trimStr content
  let firstLine := trimStr (firstLineOf raw)
  stripEdge (Char.ofNat 34) (stripEdge (Char.ofNat 96) firstLine)

/-- The retry loop of `aiHeal`. `fuel` is the number of loop iterations
left (`maxAIRetries - attempt + 1`); each iteration issues request number
`reqs` of the transport stream. A usable clickable answer returns it; a
container-marker answer returns none; any other successful answer falls
through to the next attempt; a 429 failure before the last attempt sleeps
the current delay, doubles it and retries; any other failure returns
none. Exhausting the loop returns none. -/
def aiHealGo (d : Dom) (resp : Nat → AIResp) (maxR : Nat) :
    Nat → Nat → Nat → Nat → List Nat → AIOutcome
  | 0, _, _, reqs, sleeps => ⟨none, reqs, sleeps⟩
  | fuel + 1, attempt, delay, reqs, sleeps =>
    match resp reqs with
    | .ok content =>
      let cleaned := cleanAnswer content
      if !(cleaned == "") && isClickableSelector d cleaned then
        ⟨some cleaned, reqs + 1, sleeps⟩
      else if strContains (lowerStr cleaned) "login-container" then
        ⟨none, reqs + 1, sleeps⟩
      else aiHealGo d resp maxR fuel (attempt + 1) delay (reqs + 1) sleeps
    | .fail status =>
      if status = some 429 ∧ attempt < maxR then
        aiHealGo d resp maxR fuel (attempt + 1) (delay * 2) (reqs + 1) (sleeps ++ [delay])
      else ⟨none, reqs + 1, sleeps⟩

/-- The configuration record `aiHeal` receives from the orchestrator. -/
structure AIConfig where
  model : String
  maxAIRetries : Nat
  backoffMs : Nat
deriving DecidableEq

/-- `aiHeal($, failedSelector, htmlSnapshot, cfg)` from `aiLocator.ts`,
abstracted over the transport stream `resp`. The prompt (built from the
failed selector and the snapshot truncated to 12000 chars) only influences
the remote service, hence lives inside `resp`. -/
def aiHeal (d : Dom) (resp : Nat → AIResp) (cfg : AIConfig) : AIOutcome :=
  aiHealGo d resp cfg.maxAIRetries cfg.maxAIRetries 1 cfg.backoffMs 0 []

/-- The origin tag of a healed entry (`HealSource` in `aiLocator.ts`,
`Source` in `cache.ts`). -/
inductive HealSource where
  | cache
  | heuristic
  | ai
deriving DecidableEq

/-- One persisted cache entry (`CacheEntry` in `cache.ts`). -/
structure CacheEntry where
  healed : String
  source : HealSource
  ts : String
deriving DecidableEq

/-- The in-memory shape of the cache file (`CacheShape`), as an
association list keyed by the broken locator. -/
abbrev Cache := List (String × CacheEntry)

/-- The state of the backing cache file, at the fs + JSON interface:
missing, unreadable (read throws), blank (whitespace only), malformed
(JSON.parse throws), or well-formed holding a mapping. -/
inductive BackingFile where
  | missing
  | unreadable
  | blank
  | malformed
  | wellFormed (db : Cache)
deriving DecidableEq

/-- `readFile` from `cache.ts`: every degraded file state yields the empty
mapping (missing file, blank content, and the catch around read/parse
failures); a well-formed file yields its mapping. -/
def readFile : BackingFile → Cache
  | .missing => []
  | .unreadable => []
  | .blank => []
  | .malformed => []
  | .wellFormed db => db

/-- `db[broken] = entry` on the association list: overwrite in place or
append at the end, as a JS object assignment does. -/
def cacheSet : Cache → String → CacheEntry → Cache
  | [], k, e => [(k, e)]
  | (k', e') :: rest, k, e =>
    if k' == k then (k, e) :: rest else (k', e') :: cacheSet rest k e

/-- `writeFile` from `cache.ts`: a successful write replaces the file with
the serialized mapping; a write failure is caught and leaves the file
unchanged (`writeOk` is the fate `fs.writeFileSync` would have). -/
def writeFile (writeOk : Bool) (f : BackingFile) (db : Cache) : BackingFile :=
  if writeOk then .wellFormed db else f

/-- `getHealed(broken)` from `cache.ts`. -/
def getHealed (f : BackingFile) (broken : String) : Option CacheEntry :=
  (readFile f).lookup broken

/-- `setHealed(broken, healed, source)` from `cache.ts`; `ts` is the
`new Date().toISOString()` stamp, supplied by the environment. -/
def setHealed (writeOk : Bool) (f : BackingFile) (broken healed : String)
    (source : HealSource) (ts : String) : BackingFile :=
  writeFile writeOk f (cacheSet (readFile f) broken ⟨healed, source, ts⟩)

/-- `HealOptions` from `aiLocator.ts`; `none` is an omitted option
(destructuring defaults apply). -/
structure HealOptions where
  preferHeuristic : Option Bool
  allowAI : Option Bool
  model : Option String
  maxAIRetries : Option Nat
  backoffMs : Option Nat
deriving DecidableEq

/-- The environment variables the configuration surface involves.
`openaiApiKey` and `openaiModel` are the two the code reads
(`OPENAI_API_KEY`, `OPENAI_MODEL`); `aiDisabled` models the `AI_DISABLED`
switch documented in the repository README (`Ensure AI_DISABLED is false
or absent to allow AI`) — the code under `src/healing` never reads it. -/
structure Env where
  openaiApiKey : Option String
  openaiModel : Option String
  aiDisabled : Bool
deriving DecidableEq

/-- The destructuring default for `model`:
`process.env.OPENAI_MODEL || 'gpt-4o-mini'` when the option is omitted. -/
def resolveModel (opts : HealOptions) (env : Env) : String :=
  match opts.model with
  | some m => m
  | none =>
    match env.openaiModel with
    | some m => if m == "" then "gpt-4o-mini" else m
    | none => "gpt-4o-mini"

/-- The observable outcome of one `healSelector` call: the returned
selector (or none), the cache file afterwards, whether the heuristic
scorer ran, how many remote requests were issued and which backoff sleeps
were performed, and how many cache writes (`setHealed` calls) happened. -/
structure HealOutcome where
  result : Option String
  file' : BackingFile
  heuristicInvoked : Bool
  aiRequests : Nat
  aiSleeps : List Nat
  cacheWrites : Nat
deriving DecidableEq

/-- Stage 3 of `healSelector` (the AI fallback): guarded by
`allowAI && process.env.OPENAI_API_KEY`; a clickable AI answer is
persisted with origin `ai` and returned, anything else falls through to
the failure return. -/
def healStage3 (failedSelector : String) (d : Dom) (allowAI : Bool)
    (model : String) (maxAIRetries backoffMs : Nat) (env : Env)
    (file : BackingFile) (writeOk : Bool) (now : String)
    (resp : Nat → AIResp) (heuristicInvoked : Bool) : HealOutcome :=
  if allowAI && truthy env.openaiApiKey then
    match aiHeal d resp ⟨model, maxAIRetries, backoffMs⟩ with
    | ⟨some ai, reqs, sl⟩ =>
      if isClickableSelector d ai then
        ⟨some ai, setHealed writeOk file failedSelector ai .ai now,
         heuristicInvoked, reqs, sl, 1⟩
      else ⟨none, file, heuristicInvoked, reqs, sl, 0⟩
    | ⟨none, reqs, sl⟩ => ⟨none, file, heuristicInvoked, reqs, sl, 0⟩
  else ⟨none, file, heuristicInvoked, 0, [], 0⟩

/-- Stage 2 of `healSelector` (the heuristic attempt, when
`preferHeuristic`): a clickable heuristic answer is persisted with origin
`heuristic` and returned, anything else falls through to stage 3. -/
def healStage2 (failedSelector : String) (d : Dom) (preferHeuristic allowAI : Bool)
    (model : String) (maxAIRetries backoffMs : Nat) (env : Env)
    (file : BackingFile) (writeOk : Bool) (now : String)
    (resp : Nat → AIResp) : HealOutcome :=
  if preferHeuristic then
    match heuristicHeal d failedSelector with
    | some h =>
      if isClickableSelector d h then
        ⟨some h, setHealed writeOk file failedSelector h .heuristic now,
         true, 0, [], 1⟩
      else
        healStage3 failedSelector d allowAI model maxAIRetries backoffMs env
          file writeOk now resp true
    | none =>
      healStage3 failedSelector d allowAI model maxAIRetries backoffMs env
        file writeOk now resp true
  else
    healStage3 failedSelector d allowAI model maxAIRetries backoffMs env
      file writeOk now resp false

/-- `healSelector(failedSelector, htmlSnapshot, opts)` from
`aiLocator.ts`. `d` is `load(htmlSnapshot)`; `file` is the cache file,
`writeOk` the fate cache writes would have, `now` the timestamp, and
`resp` the remote transport. Stage 1 returns a cached entry that is still
clickable in the current snapshot, without writing; otherwise the
heuristic and AI stages run in order. -/
def healSelector (failedSelector : String) (d : Dom) (opts : HealOptions)
    (env : Env) (file : BackingFile) (writeOk : Bool) (now : String)
    (resp : Nat → AIResp) : HealOutcome :=
  let preferHeuristic := opts.preferHeuristic.getD true
  let allowAI := opts.allowAI.getD true
  let model := resolveModel opts env
  let maxAIRetries := opts.maxAIRetries.getD 6
  let backoffMs := opts.backoffMs.getD 500
  match getHealed file failedSelector with
  | some entry =>
    if isClickableSelector d entry.healed then
      ⟨some entry.healed, file, false, 0, [], 0⟩
    else
      healStage2 failedSelector d preferHeuristic allowAI model maxAIRetries
        backoffMs env file writeOk now resp
  | none =>
    healStage2 failedSelector d preferHeuristic allowAI model maxAIRetries
      backoffMs env file writeOk now resp

/-- The expected sleep sequence of an all-rate-limited run: `n` sleeps
starting at `delay` and doubling. -/
def backoffSleeps (delay : Nat) : Nat → List Nat
  | 0 => []
  | n + 1 => delay :: backoffSleeps (delay * 2) n

/-- The login button of end-to-end scenario A:
`<button id="login-button" data-test="login-button">Login</button>`. -/
def elLoginBtn : Element :=
  ⟨"button", [("id", "login-button"), ("data-test", "login-button")], "Login"⟩

/-- The wrapper of scenario A: `<div class="login-container">…</div>`. -/
def elLoginContainer : Element :=
  ⟨"div", [("class", "login-container")], "Login"⟩

/-- The parsed snapshot of scenario A, at cheerio's interface: the only
element the clickable-role queries match is the login button; the wrapper
div matches none of them. -/
def domA : Dom :=
  ⟨fun s =>
    if s == "button" then [elLoginBtn]
    else if s == "#login-button" then [elLoginBtn]
    else if s == "[data-test=\"login-button\"]" then [elLoginBtn]
    else if s == "div" then [elLoginContainer]
    else if s == ".login-container" then [elLoginContainer]
    else []⟩

/-- A clickable button whose `data-test` text contains the container
marker but whose id and class are clean:
`<button id="submit-btn" data-test="login-container">Login</button>`. -/
def elSubmitBtn : Element :=
  ⟨"button", [("id", "submit-btn"), ("data-test", "login-container")], "Login"⟩

/-- A snapshot whose only clickable element is `elSubmitBtn`. -/
def domB : Dom :=
  ⟨fun s =>
    if s == "button" then [elSubmitBtn]
    else if s == "#submit-btn" then [elSubmitBtn]
    else []⟩

/-- A snapshot with no elements at all. -/
def emptyDom : Dom := ⟨fun _ => []⟩

/-- Omitted-options record: every destructuring default applies. -/
def defaultOpts : HealOptions := ⟨none, none, none, none, none⟩

/-- A clickable button whose class is the container marker itself:
`<button class="login-container">Login</button>`. -/
def elContainerBtn : Element :=
  ⟨"button", [("class", "login-container")], "Login"⟩

/-- A snapshot in which the selector `.login-container` resolves to the
clickable `elContainerBtn`. -/
def domC : Dom :=
  ⟨fun s =>
    if s == ".login-container" then [elContainerBtn]
    else if s == "button" then [elContainerBtn]
    else []⟩


/-- C6: for the broken locator `#login-button-invalid` and the scenario-A
snapshot (a `div.login-container` wrapping
`<button id="login-button" data-test="login-button">Login</button>`),
the heuristic stage returns the selector `#login-button`. -/
theorem heuristicHeal_scenarioA :
    heuristicHeal domA "#login-button-invalid" = some "#login-button" := by
  decide

/-- C7 (failing input): with the documented `AI_DISABLED` switch set in the
environment, `allowAI = true` and a remote credential configured, a
healing call whose cache and heuristic stages fail still issues a remote
request — the code never reads the switch, contradicting the README. -/
theorem healSelector_ignores_aiDisabled :
    (⟨some "sk-test", none, true⟩ : Env).aiDisabled = true ∧
    (healSelector "#x" emptyDom ⟨none, some true, none, none, none⟩
      ⟨some "sk-test", none, true⟩ .missing true "t0"
      (fun _ => .fail (some 500))).aiRequests = 1 := by
  constructor
  · rfl
  · decide

theorem backoffSleeps_eq_map :
    ∀ (n delay : Nat),
      backoffSleeps delay n = (List.range n).map (fun i => delay * 2 ^ i) := by
  intro n
  induction n with
  | zero => intro delay; rfl
  | succ m ih =>
    intro delay
    rw [backoffSleeps, ih (delay * 2), List.range_succ_eq_map]
    simp only [List.map_cons, List.map_map]
    congr 1
    · simp
    · apply List.map_congr_left
      intro a _
      simp only [Function.comp_apply, pow_succ]
      ring

theorem aiHealGo_succ (d : Dom) (resp : Nat → AIResp)
    (maxR fuel attempt delay reqs : Nat) (sleeps : List Nat) :
    aiHealGo d resp maxR (fuel + 1) attempt delay reqs sleeps =
      match resp reqs with
      | .ok content =>
        let cleaned := cleanAnswer content
        if !(cleaned == "") && isClickableSelector d cleaned then
          ⟨some cleaned, reqs + 1, sleeps⟩
        else if strContains (lowerStr cleaned) "login-container" then
          ⟨none, reqs + 1, sleeps⟩
        else aiHealGo d resp maxR fuel (attempt + 1) delay (reqs + 1) sleeps
      | .fail status =>
        if status = some 429 ∧ attempt < maxR then
          aiHealGo d resp maxR fuel (attempt + 1) (delay * 2) (reqs + 1) (sleeps ++ [delay])
        else ⟨none, reqs + 1, sleeps⟩ := rfl

theorem aiHealGo_allRateLimited (d : Dom) (resp : Nat → AIResp)
    (h : ∀ i, resp i = .fail (some 429)) (maxR : Nat) :
    ∀ (fuel attempt delay reqs : Nat) (sleeps : List Nat),
      attempt + fuel = maxR + 1 →
      aiHealGo d resp maxR fuel attempt delay reqs sleeps =
        ⟨none, reqs + fuel, sleeps ++ backoffSleeps delay (fuel - 1)⟩ := by
  intro fuel
  induction fuel with
  | zero =>
    intro attempt delay reqs sleeps hsum
    simp [aiHealGo, backoffSleeps]
  | succ f ih =>
    intro attempt delay reqs sleeps hsum
    rcases f with _ | g
    · have hnlt : ¬ attempt < maxR := by omega
      rw [aiHealGo_succ, h reqs]
      change (if some 429 = some 429 ∧ attempt < maxR then _ else _) = _
      rw [if_neg (fun hc => hnlt hc.2)]
      simp [backoffSleeps]
    · have hlt : attempt < maxR := by omega
      have ih' := ih (attempt + 1) (delay * 2) (reqs + 1) (sleeps ++ [delay]) (by omega)
      rw [aiHealGo_succ, h reqs]
      change (if some 429 = some 429 ∧ attempt < maxR then _ else _) = _
      rw [if_pos (show some 429 = some 429 ∧ attempt < maxR from ⟨rfl, hlt⟩), ih']
      simp only [AIOutcome.mk.injEq, Nat.add_sub_cancel, backoffSleeps,
        List.append_assoc, List.singleton_append, true_and]
      exact ⟨by omega, trivial⟩

/-- C3: when every remote request of one AI-stage run fails with a 429
rate-limit response, the client issues exactly `maxAIRetries` requests,
sleeping between consecutive requests for `backoffMs`, `2*backoffMs`,
`4*backoffMs`, …, and then returns none. -/
theorem aiHeal_allRateLimited (d : Dom) (resp : Nat → AIResp) (cfg : AIConfig)
    (h : ∀ i, resp i = .fail (some 429)) :
    aiHeal d resp cfg =
      ⟨none, cfg.maxAIRetries,
        (List.range (cfg.maxAIRetries - 1)).map (fun i => cfg.backoffMs * 2 ^ i)⟩ := by
  have hgo := aiHealGo_allRateLimited d resp h cfg.maxAIRetries cfg.maxAIRetries
    1 cfg.backoffMs 0 [] (by omega)
  rw [aiHeal, hgo, backoffSleeps_eq_map]
  simp

/-- Witness for C3 at a concrete transport: three attempts, all
rate-limited, with sleeps 500 ms and 1000 ms. -/
theorem aiHeal_allRateLimited_witness :
    aiHeal emptyDom (fun _ => .fail (some 429)) ⟨"gpt-4o-mini", 3, 500⟩ =
      ⟨none, 3, [500, 1000]⟩ := by
  rw [aiHeal_allRateLimited emptyDom (fun _ => .fail (some 429))
    ⟨"gpt-4o-mini", 3, 500⟩ (fun _ => rfl)]
  decide

/-- C4 (counterexample): two concrete runs refute the claim as stated.
First, a run in which every response is a successful (non-failure)
transport response with an unusable answer still issues a second request
— so a non-rate-limit response can cause an additional request, refuting
"only a rate-limit response ever causes an additional request". Second,
on a snapshot where `.login-container` resolves to a clickable button,
the answer `.login-container` — which textually matches the container
marker — is returned, not treated as none: the code checks clickability
before the container test, refuting the unqualified container clause. -/
theorem aiHeal_retries_after_ok_response :
    (aiHeal emptyDom (fun _ => AIResp.ok "div.foo") ⟨"gpt-4o-mini", 2, 500⟩ =
      ⟨none, 2, []⟩) ∧
    (aiHeal domC (fun _ => AIResp.ok ".login-container") ⟨"gpt-4o-mini", 2, 500⟩ =
      ⟨some ".login-container", 1, []⟩ ∧
     strContains (lowerStr ".login-container") "login-container" = true) := by
  refine ⟨by decide, by decide, by decide⟩

/-- C4 (amended): at any state of the retry loop — hence at any point of
a run, in particular after earlier rate-limited attempts or unusable
successful answers (`aiHeal d resp cfg` is the loop state
`aiHealGo d resp cfg.maxAIRetries cfg.maxAIRetries 1 cfg.backoffMs 0 []`,
and every continuation is again such a state) — a transport or service
failure whose status is not 429 makes the AI stage return none
immediately: only the current request is counted and the sleeps
performed so far are unchanged (no further request, no backoff sleep);
and a successful answer that did not pass the clickability check and
textually matches the container marker is treated as none without
retrying, in the same immediate way. -/
theorem aiHeal_non429_aborts (d : Dom) (resp : Nat → AIResp)
    (maxR fuel attempt delay reqs : Nat) (sleeps : List Nat)
    (h1 : 1 ≤ fuel) :
    (∀ st, resp reqs = .fail st → st ≠ some 429 →
      aiHealGo d resp maxR fuel attempt delay reqs sleeps =
        ⟨none, reqs + 1, sleeps⟩) ∧
    (∀ c, resp reqs = .ok c → isClickableSelector d (cleanAnswer c) = false →
      strContains (lowerStr (cleanAnswer c)) "login-container" = true →
      aiHealGo d resp maxR fuel attempt delay reqs sleeps =
        ⟨none, reqs + 1, sleeps⟩) := by
  obtain ⟨f, rfl⟩ : ∃ f, fuel = f + 1 := ⟨fuel - 1, by omega⟩
  constructor
  · intro st hresp hne
    rw [aiHealGo_succ, hresp]
    change (if st = some 429 ∧ attempt < maxR then _ else _) = _
    rw [if_neg (fun hc => hne hc.1)]
  · intro c hresp hck hcont
    rw [aiHealGo_succ, hresp]
    simp only [hck, Bool.and_false, Bool.false_eq_true, if_false, hcont, if_true]

/-- Witness for the amended C4 at a mid-run state: a transport answering
429 then 500 sleeps once for the 429, and the 500 on the second request
aborts the run there — two requests, the single 500 ms sleep, result
none. The theorem is applied at the loop state the 429 step leads to. -/
theorem aiHeal_non429_aborts_witness :
    aiHeal emptyDom
      (fun i => if i == 0 then .fail (some 429) else .fail (some 500))
      ⟨"gpt-4o-mini", 3, 500⟩ = ⟨none, 2, [500]⟩ := by
  have hstep : aiHeal emptyDom
      (fun i => if i == 0 then AIResp.fail (some 429) else AIResp.fail (some 500))
      ⟨"gpt-4o-mini", 3, 500⟩ =
      aiHealGo emptyDom
        (fun i => if i == 0 then AIResp.fail (some 429) else AIResp.fail (some 500))
        3 2 2 1000 1 [500] := by decide
  rw [hstep]
  exact (aiHeal_non429_aborts emptyDom
    (fun i => if i == 0 then AIResp.fail (some 429) else AIResp.fail (some 500))
    3 2 2 1000 1 [500] (by decide)).1 (some 500) (by decide) (by decide)

/-- C5 (counterexample): on a snapshot whose only clickable-role candidate
is `<button id="submit-btn" data-test="login-container">Login</button>`,
the heuristic returns the selector `#submit-btn`, which resolves exactly
to that element — an element whose `data-test` text contains the
container marker. The marker only triggers the −30 penalty and the
synthesis fallback, not candidate exclusion. -/
theorem heuristicHeal_containerish_dataTest :
    heuristicHeal domB "#login-button-invalid" = some "#submit-btn" ∧
    domB.query "#submit-btn" = [elSubmitBtn] ∧
    strContains (lowerStr (attrD elSubmitBtn "data-test")) "container" = true := by
  refine ⟨by decide, by decide, by decide⟩

theorem heuristicFold_mem (tokens : List String) :
    ∀ (l : List Element) (acc : Option (String × Int)) (sel : String) (sc : Int),
      l.foldl (heuristicStep tokens) acc = some (sel, sc) →
      acc = some (sel, sc) ∨
        ∃ el ∈ l, looksContainer el = false ∧ buildBestSelectorFor el = sel := by
  intro l
  induction l with
  | nil =>
    intro acc sel sc h
    left
    simpa using h
  | cons e rest ih =>
    intro acc sel sc h
    simp only [List.foldl_cons] at h
    rcases ih (heuristicStep tokens acc e) sel sc h with hacc | ⟨el, hmem, hel⟩
    · by_cases hlc : looksContainer e = true
      · left
        unfold heuristicStep at hacc
        rwa [if_pos hlc] at hacc
      · have hlcf : looksContainer e = false := by simpa using hlc
        unfold heuristicStep at hacc
        rw [if_neg hlc] at hacc
        rcases acc with _ | ⟨bSel, bSc⟩
        · simp only [Option.some.injEq, Prod.mk.injEq] at hacc
          right
          exact ⟨e, List.mem_cons_self e rest, hlcf, hacc.1⟩
        · dsimp only at hacc
          split at hacc
          · simp only [Option.some.injEq, Prod.mk.injEq] at hacc
            right
            exact ⟨e, List.mem_cons_self e rest, hlcf, hacc.1⟩
          · left
            exact hacc
    · right
      exact ⟨el, List.mem_cons_of_mem e hmem, hel⟩

/-- C5 (amended): the heuristic never *considers* an element whose id or
class text contains a structural marker (container/wrapper/form/box/
panel/section) — every returned selector is synthesized for a candidate
that passed that filter — and the returned selector's own text never
matches the final container/wrapper guard pattern. An element whose
`data-test` alone carries a container marker is only penalized in
scoring and may still be returned (addressed through its other
attributes), as the counterexample shows. -/
theorem heuristicHeal_noContainer (d : Dom) (fs : String) (r : String)
    (h : heuristicHeal d fs = some r) :
    containerGuard r = false ∧
    ∃ el ∈ candidatesOf d, looksContainer el = false ∧ buildBestSelectorFor el = r := by
  unfold heuristicHeal at h
  dsimp only at h
  split at h
  · exact absurd h (by simp)
  · split at h
    · exact absurd h (by simp)
    · rename_i p bestSel bestScore heq
      split at h
      · exact absurd h (by simp)
      · rename_i hguard
        obtain rfl : bestSel = r := by
          simpa using h
        refine ⟨by simpa using hguard, ?_⟩
        rcases heuristicFold_mem (extractTokens fs) (candidatesOf d) none bestSel bestScore heq
          with hacc | hex
        · exact absurd hacc (by simp)
        · exact hex

/-- Witness for the amended C5 on the scenario-A snapshot. -/
theorem heuristicHeal_noContainer_witness :
    containerGuard "#login-button" = false ∧
    ∃ el ∈ candidatesOf domA, looksContainer el = false ∧
      buildBestSelectorFor el = "#login-button" :=
  heuristicHeal_noContainer domA "#login-button-invalid" "#login-button" (by decide)

theorem healStage3_result_clickable (fs : String) (d : Dom) (allowAI : Bool)
    (model : String) (maxR bo : Nat) (env : Env) (file : BackingFile)
    (wOk : Bool) (now : String) (resp : Nat → AIResp) (hi : Bool) (s : String)
    (h : (healStage3 fs d allowAI model maxR bo env file wOk now resp hi).result = some s) :
    isClickableSelector d s = true := by
  unfold healStage3 at h
  split at h
  · split at h
    · split at h
      · rename_i hck
        dsimp only at h
        rw [Option.some.injEq] at h
        subst h
        exact hck
      · exact absurd h (by simp)
    · exact absurd h (by simp)
  · exact absurd h (by simp)

theorem healStage2_result_clickable (fs : String) (d : Dom)
    (preferHeuristic allowAI : Bool) (model : String) (maxR bo : Nat)
    (env : Env) (file : BackingFile) (wOk : Bool) (now : String)
    (resp : Nat → AIResp) (s : String)
    (h : (healStage2 fs d preferHeuristic allowAI model maxR bo env file wOk now resp).result = some s) :
    isClickableSelector d s = true := by
  unfold healStage2 at h
  split at h
  · split at h
    · split at h
      · rename_i hck
        dsimp only at h
        rw [Option.some.injEq] at h
        subst h
        exact hck
      · exact healStage3_result_clickable fs d allowAI model maxR bo env file
          wOk now resp true s h
    · exact healStage3_result_clickable fs d allowAI model maxR bo env file
        wOk now resp true s h
  · exact healStage3_result_clickable fs d allowAI model maxR bo env file
      wOk now resp false s h

/-- C1: whenever the healing orchestrator returns a selector (rather than
none), that selector satisfies the clickability predicate against the
snapshot supplied to that same call — whether it came from the cache, the
heuristic, or the remote-suggestion stage. -/
theorem healSelector_result_clickable (fs : String) (d : Dom)
    (opts : HealOptions) (env : Env) (file : BackingFile) (wOk : Bool)
    (now : String) (resp : Nat → AIResp) (s : String)
    (h : (healSelector fs d opts env file wOk now resp).result = some s) :
    isClickableSelector d s = true := by
  unfold healSelector at h
  dsimp only at h
  split at h
  · split at h
    · rename_i hck
      dsimp only at h
      rw [Option.some.injEq] at h
      subst h
      exact hck
    · exact healStage2_result_clickable fs d _ _ _ _ _ env file wOk now resp s h
  · exact healStage2_result_clickable fs d _ _ _ _ _ env file wOk now resp s h

/-- Witness for C1: a concrete call on the scenario-A snapshot heals to
`#login-button`, which is clickable there. -/
theorem healSelector_result_clickable_witness :
    (healSelector "#login-button-invalid" domA defaultOpts ⟨none, none, false⟩
        .missing true "t0" (fun _ => .fail none)).result = some "#login-button" ∧
    isClickableSelector domA "#login-button" = true :=
  ⟨by decide,
   healSelector_result_clickable "#login-button-invalid" domA defaultOpts
     ⟨none, none, false⟩ .missing true "t0" (fun _ => .fail none)
     "#login-button" (by decide)⟩

/-- C2: when a cached entry exists for the broken locator and its stored
selector passes the clickability predicate against the current snapshot,
the orchestrator returns that cached selector immediately: the heuristic
scorer is not invoked, no remote request is issued, no backoff sleep
happens, and no cache write is performed (the file is unchanged). -/
theorem healSelector_cacheHit (fs : String) (d : Dom) (opts : HealOptions)
    (env : Env) (file : BackingFile) (wOk : Bool) (now : String)
    (resp : Nat → AIResp) (e : CacheEntry)
    (hget : getHealed file fs = some e)
    (hclick : isClickableSelector d e.healed = true) :
    healSelector fs d opts env file wOk now resp =
      ⟨some e.healed, file, false, 0, [], 0⟩ := by
  unfold healSelector
  dsimp only
  rw [hget]
  simp [hclick]

/-- Witness for C2: a cached, still-clickable entry on the scenario-A
snapshot is returned as-is, with no heuristic run, no remote request and
no write. -/
theorem healSelector_cacheHit_witness :
    getHealed (.wellFormed [("#login-button-invalid",
        ⟨"#login-button", .heuristic, "t1"⟩)]) "#login-button-invalid" =
      some ⟨"#login-button", .heuristic, "t1"⟩ ∧
    isClickableSelector domA "#login-button" = true ∧
    healSelector "#login-button-invalid" domA defaultOpts ⟨none, none, false⟩
        (.wellFormed [("#login-button-invalid", ⟨"#login-button", .heuristic, "t1"⟩)])
        true "t2" (fun _ => .fail none) =
      ⟨some "#login-button",
       .wellFormed [("#login-button-invalid", ⟨"#login-button", .heuristic, "t1"⟩)],
       false, 0, [], 0⟩ :=
  ⟨by decide, by decide,
   healSelector_cacheHit "#login-button-invalid" domA defaultOpts
     ⟨none, none, false⟩
     (.wellFormed [("#login-button-invalid", ⟨"#login-button", .heuristic, "t1"⟩)])
     true "t2" (fun _ => .fail none) ⟨"#login-button", .heuristic, "t1"⟩
     (by decide) (by decide)⟩

theorem healStage3_result_wOk_indep (fs : String) (d : Dom) (allowAI : Bool)
    (model : String) (maxR bo : Nat) (env : Env) (file : BackingFile)
    (w w' : Bool) (now : String) (resp : Nat → AIResp) (hi : Bool) :
    (healStage3 fs d allowAI model maxR bo env file w now resp hi).result =
      (healStage3 fs d allowAI model maxR bo env file w' now resp hi).result := by
  unfold healStage3
  split
  · rcases haiHeal : aiHeal d resp ⟨model, maxR, bo⟩ with ⟨r, reqs, sl⟩
    rcases r with _ | ai
    · rfl
    · by_cases hck : isClickableSelector d ai = true
      · simp [hck]
      · simp [hck]
  · rfl

theorem healStage2_result_wOk_indep (fs : String) (d : Dom)
    (preferHeuristic allowAI : Bool) (model : String) (maxR bo : Nat)
    (env : Env) (file : BackingFile) (w w' : Bool) (now : String)
    (resp : Nat → AIResp) :
    (healStage2 fs d preferHeuristic allowAI model maxR bo env file w now resp).result =
      (healStage2 fs d preferHeuristic allowAI model maxR bo env file w' now resp).result := by
  unfold healStage2
  split
  · rcases hh : heuristicHeal d fs with _ | sel
    · exact healStage3_result_wOk_indep fs d allowAI model maxR bo env file
        w w' now resp true
    · by_cases hck : isClickableSelector d sel = true
      · simp [hck]
      · simp only [hck]
        exact healStage3_result_wOk_indep fs d allowAI model maxR bo env file
          w w' now resp true
  · exact healStage3_result_wOk_indep fs d allowAI model maxR bo env file
      w w' now resp false

/-- C8: cache I/O failures never propagate. Every degraded state of the
backing file — missing, unreadable, blank, or malformed — makes a cache
read behave as the empty mapping (a miss for every key), and the result
of a healing call does not depend on whether its cache writes succeed:
a call that produced a selector still returns it when the write fails. -/
theorem cacheIO_failures_nonfatal :
    (∀ k, getHealed .missing k = none ∧ getHealed .unreadable k = none ∧
      getHealed .blank k = none ∧ getHealed .malformed k = none) ∧
    (∀ (fs : String) (d : Dom) (opts : HealOptions) (env : Env)
        (file : BackingFile) (now : String) (resp : Nat → AIResp),
      (healSelector fs d opts env file false now resp).result =
        (healSelector fs d opts env file true now resp).result) := by
  constructor
  · intro k
    exact ⟨rfl, rfl, rfl, rfl⟩
  · intro fs d opts env file now resp
    unfold healSelector
    dsimp only
    rcases hget : getHealed file fs with _ | e
    · exact healStage2_result_wOk_indep fs d _ _ _ _ _ env file false true now resp
    · by_cases hck : isClickableSelector d e.healed = true
      · simp [hck]
      · simp only [hck]
        exact healStage2_result_wOk_indep fs d _ _ _ _ _ env file false true now resp

theorem cacheSet_lookup_self (k : String) (e : CacheEntry) :
    ∀ db : Cache, (cacheSet db k e).lookup k = some e := by
  intro db
  induction db with
  | nil => simp [cacheSet, List.lookup]
  | cons p rest ih =>
    rcases p with ⟨k', e'⟩
    by_cases hk : k' = k
    · subst hk
      simp [cacheSet, List.lookup]
    · have hb : (k' == k) = false := beq_eq_false_iff_ne.mpr hk
      have hb' : (k == k') = false := beq_eq_false_iff_ne.mpr (Ne.symm hk)
      simp only [cacheSet, hb, Bool.false_eq_true, if_false, List.lookup, hb']
      exact ih

theorem cacheSet_lookup_other (k other : String) (e : CacheEntry)
    (hne : other ≠ k) :
    ∀ db : Cache, (cacheSet db k e).lookup other = db.lookup other := by
  intro db
  induction db with
  | nil =>
    have hb : (other == k) = false := beq_eq_false_iff_ne.mpr hne
    simp [cacheSet, List.lookup, hb]
  | cons p rest ih =>
    rcases p with ⟨k', e'⟩
    by_cases hk : k' = k
    · subst hk
      have hb : (other == k') = false := beq_eq_false_iff_ne.mpr hne
      simp [cacheSet, List.lookup, hb]
    · have hb : (k' == k) = false := beq_eq_false_iff_ne.mpr hk
      simp only [cacheSet, hb, Bool.false_eq_true, if_false, List.lookup]
      by_cases ho : other = k'
      · subst ho
        simp [List.lookup]
      · have hbo : (other == k') = false := beq_eq_false_iff_ne.mpr ho
        simp only [hbo]
        exact ih

/-- C9: writing a healed entry and immediately reading the same broken
locator back (no intervening write, functioning backing store) returns an
entry with exactly the written selector, origin, and timestamp. -/
theorem setHealed_roundTrip (f : BackingFile) (broken healed : String)
    (src : HealSource) (ts : String) :
    getHealed (setHealed true f broken healed src ts) broken =
      some ⟨healed, src, ts⟩ := by
  unfold getHealed setHealed writeFile
  simp only [if_true, readFile]
  exact cacheSet_lookup_self broken ⟨healed, src, ts⟩ (readFile f)

/-- C10: on a readable, well-formed backing file, `setHealed` changes only
the entry for its own key — a lookup of any other key is unchanged by the
write. -/
theorem setHealed_frame (db : Cache) (broken healed : String)
    (src : HealSource) (ts : String) (other : String) (hne : other ≠ broken) :
    getHealed (setHealed true (.wellFormed db) broken healed src ts) other =
      getHealed (.wellFormed db) other := by
  unfold getHealed setHealed writeFile
  simp only [if_true, readFile]
  exact cacheSet_lookup_other broken other ⟨healed, src, ts⟩ hne db

/-- Witness for C10: writing `#c` leaves the entry stored under `#a`
untouched. -/
theorem setHealed_frame_witness :
    getHealed (setHealed true (.wellFormed [("#a", ⟨"#b", .ai, "t0"⟩)])
        "#c" "#d" .heuristic "t1") "#a" =
      getHealed (.wellFormed [("#a", ⟨"#b", .ai, "t0"⟩)]) "#a" :=
  setHealed_frame [("#a", ⟨"#b", .ai, "t0"⟩)] "#c" "#d" .heuristic "t1" "#a"
    (by decide)
